import Mathlib

/-!
# Verification model of the fact-verification Soroban contract

Shallow embedding of `src/contracts/smart contract/src/lib.rs`.

Modeling conventions:

* `Address` is an opaque comparable identity; we model it as `Nat`.
* Soroban `String` is modeled as Lean `String`.
* Contract storage is modeled explicitly: the instance entry `FACT_CNT`
  becomes the `factCount : Option Nat` field (absent = never initialized),
  and the persistent entries keyed by `(FACT, id)` become an association
  list from ids to `Fact` records.
* Every operation returns its result together with the list of storage
  `Effect`s it performed, in program order (persistent/instance `set`
  calls and `extend_ttl` calls).  TTL extensions are effects on the
  external store that do not change the modeled registry state.
* Counters and ids are `u32` in the source.  Soroban contracts are built
  with `overflow-checks` enabled, so an overflowing `+ 1` panics; a panic
  aborts the invocation before any further storage write, which we model
  as an `Err.Overflow` result with the effects performed up to that point.
  Arithmetic below `u32::MAX` is exact, so `Nat` with an explicit bound
  check is a faithful model.
* `require_auth` is delegated to the (excluded) host authentication
  collaborator and is not part of the modeled state machine.
-/

namespace FactVerification

/-- Identities (Soroban `Address`), opaque and comparable. -/
abbrev Address := Nat

/-- `u32::MAX = 2^32 - 1`: the largest value of the contract's counters. -/
def U32_MAX : Nat := 4294967295

/-- The `Fact` struct of the contract (lib.rs lines 11-18). -/
structure Fact where
  id : Nat
  text : String
  creator : Address
  true_votes : Nat
  false_votes : Nat
  voters : List Address
deriving DecidableEq

/-- A single storage operation performed by a contract call:
`setFact i f` is `env.storage().persistent().set(&(FACT, i), &f)`,
`setCount n` is `env.storage().instance().set(&FACT_CNT, &n)`,
`extendTtlFact i` is `extend_ttl` on the persistent key `(FACT, i)`, and
`extendTtlInstance` is `extend_ttl` on instance storage. -/
inductive Effect where
  | setFact : Nat → Fact → Effect
  | setCount : Nat → Effect
  | extendTtlFact : Nat → Effect
  | extendTtlInstance : Effect
deriving DecidableEq

/-- The ways a contract call can panic: `NotFound` is
`expect("Fact not found")` on a missing record, `AlreadyVoted` is
`panic!("Already voted on this fact")`, and `Overflow` is a checked-add
panic on a `u32` counter. -/
inductive Err where
  | NotFound : Err
  | AlreadyVoted : Err
  | Overflow : Err
deriving DecidableEq

/-- The registry state: the `FACT_CNT` instance entry (absent if never
written) and the persistent fact records keyed by id. -/
structure RegistryState where
  factCount : Option Nat
  facts : List (Nat × Fact)
deriving DecidableEq

/-- The uninitialized registry: no counter, no records. -/
def initState : RegistryState := { factCount := none, facts := [] }

/-- Point lookup in the keyed fact entries (first entry with the key). -/
def lookupEntry : List (Nat × Fact) → Nat → Option Fact
  | [], _ => none
  | (j, g) :: t, i => if j = i then some g else lookupEntry t i

/-- Point write in the keyed fact entries: replace the entry for the key
if present, otherwise append a fresh entry. -/
def setEntry : List (Nat × Fact) → Nat → Fact → List (Nat × Fact)
  | [], i, f => [(i, f)]
  | (j, g) :: t, i, f => if j = i then (i, f) :: t else (j, g) :: setEntry t i f

/-- `env.storage().persistent().get(&(FACT, i))`. -/
def lookupFact (σ : RegistryState) (i : Nat) : Option Fact :=
  lookupEntry σ.facts i

/-- `env.storage().instance().get(&FACT_CNT).unwrap_or(0)`. -/
def factCountVal (σ : RegistryState) : Nat :=
  σ.factCount.getD 0

/-- Apply one storage effect to the modeled state.  TTL extensions only
touch the external store's expiration metadata, not the registry state. -/
def applyEffect (σ : RegistryState) : Effect → RegistryState
  | .setFact i f => { σ with facts := setEntry σ.facts i f }
  | .setCount n => { σ with factCount := some n }
  | .extendTtlFact _ => σ
  | .extendTtlInstance => σ

/-- Apply a list of storage effects in order. -/
def applyEffects (σ : RegistryState) (es : List Effect) : RegistryState :=
  es.foldl applyEffect σ

/-- The fact record built by `submit_fact` (lib.rs lines 45-52): the new
id, the submitted text, the submitting creator, zero counters, no voters. -/
def freshFact (new_id : Nat) (creator : Address) (text : String) : Fact :=
  { id := new_id, text := text, creator := creator,
    true_votes := 0, false_votes := 0, voters := [] }

/-- `submit_fact` (lib.rs lines 34-66): read the counter (default 0),
compute `new_id = fact_count + 1` (checked `u32` add), build the fresh
fact, store it, store the new counter, extend both TTLs, return the id. -/
def submit_fact (σ : RegistryState) (creator : Address) (text : String) :
    Except Err Nat × List Effect :=
  let fact_count := factCountVal σ
  if fact_count + 1 ≤ U32_MAX then
    let new_id := fact_count + 1
    (Except.ok new_id,
      [Effect.setFact new_id (freshFact new_id creator text), Effect.setCount new_id,
       Effect.extendTtlFact new_id, Effect.extendTtlInstance])
  else
    (Except.error Err.Overflow, [])

/-- The duplicate-voter check of `vote` (lib.rs lines 91-95): a linear
equality scan over the voter sequence, in order. -/
def scanAlreadyVoted (voters : List Address) (voter : Address) : Bool :=
  match voters with
  | [] => false
  | v :: rest => if v = voter then true else scanAlreadyVoted rest voter

/-- The record update performed by a successful `vote` (lib.rs lines
98-105): append the voter and increment exactly one of the two counters,
`true_votes` when the choice is true, `false_votes` otherwise. -/
def votedFact (fact : Fact) (voter : Address) (is_true : Bool) : Fact :=
  { fact with
    voters := fact.voters ++ [voter],
    true_votes := if is_true then fact.true_votes + 1 else fact.true_votes,
    false_votes := if is_true then fact.false_votes else fact.false_votes + 1 }

/-- `vote` (lib.rs lines 79-112): load the record (`NotFound` if absent),
scan the voter list (`AlreadyVoted` on a match), append the voter,
increment the chosen counter (checked `u32` add), write the record back
and extend its TTL. -/
def vote (σ : RegistryState) (voter : Address) (fact_id : Nat) (is_true : Bool) :
    Except Err Unit × List Effect :=
  match lookupFact σ fact_id with
  | none => (Except.error Err.NotFound, [])
  | some fact =>
    if scanAlreadyVoted fact.voters voter then
      (Except.error Err.AlreadyVoted, [])
    else
      let fact2 := votedFact fact voter is_true
      if fact2.true_votes ≤ U32_MAX ∧ fact2.false_votes ≤ U32_MAX then
        (Except.ok (), [Effect.setFact fact_id fact2, Effect.extendTtlFact fact_id])
      else
        (Except.error Err.Overflow, [])

/-- `get_fact` (lib.rs lines 125-136): point lookup, `NotFound` if
absent, TTL refresh on the record that is returned. -/
def get_fact (σ : RegistryState) (fact_id : Nat) : Except Err Fact × List Effect :=
  match lookupFact σ fact_id with
  | none => (Except.error Err.NotFound, [])
  | some fact => (Except.ok fact, [Effect.extendTtlFact fact_id])

/-- One step of the `get_all_facts` loop body: try the lookup for one id,
push the record and refresh its TTL when present, skip silently when not. -/
def collectFact (σ : RegistryState) (acc : List Fact × List Effect) (i : Nat) :
    List Fact × List Effect :=
  match lookupFact σ i with
  | some fact => (acc.1 ++ [fact], acc.2 ++ [Effect.extendTtlFact i])
  | none => acc

/-- `get_all_facts` (lib.rs lines 145-160): read the counter (default 0)
and loop `id` from 1 to the counter, collecting the records that exist. -/
def get_all_facts (σ : RegistryState) : List Fact × List Effect :=
  (List.range' 1 (factCountVal σ)).foldl (collectFact σ) ([], [])

/-- `get_fact_count` (lib.rs lines 169-171): return the stored counter or
0; no storage write, no TTL extension. -/
def get_fact_count (σ : RegistryState) : Nat × List Effect :=
  (factCountVal σ, [])

/-- `Steps σ σ'`: `σ'` is obtained from `σ` by a sequence of successful
`submit_fact` and `vote` invocations, each applying its storage effects. -/
inductive Steps : RegistryState → RegistryState → Prop
  | refl (σ : RegistryState) : Steps σ σ
  | submit (σ σ' : RegistryState) (c : Address) (t : String) (i : Nat)
      (es : List Effect) : Steps σ σ' →
      submit_fact σ' c t = (Except.ok i, es) → Steps σ (applyEffects σ' es)
  | vote (σ σ' : RegistryState) (v : Address) (i : Nat) (b : Bool)
      (es : List Effect) : Steps σ σ' →
      vote σ' v i b = (Except.ok (), es) → Steps σ (applyEffects σ' es)

/-- A state reachable from the uninitialized registry by successful
mutating invocations. -/
def Reachable (σ : RegistryState) : Prop :=
  Steps initState σ

/-! ## Basic storage lemmas -/

@[simp]
theorem applyEffects_nil (σ : RegistryState) : applyEffects σ [] = σ := rfl

@[simp]
theorem applyEffects_cons (σ : RegistryState) (e : Effect) (es : List Effect) :
    applyEffects σ (e :: es) = applyEffects (applyEffect σ e) es := rfl

theorem lookupEntry_setEntry (l : List (Nat × Fact)) (i j : Nat) (f : Fact) :
    lookupEntry (setEntry l i f) j = if j = i then some f else lookupEntry l j := by
  induction l with
  | nil =>
    by_cases h : j = i
    · simp [setEntry, lookupEntry, h]
    · simp [setEntry, lookupEntry, h, Ne.symm h]
  | cons hd t ih =>
    obtain ⟨k, g⟩ := hd
    by_cases hk : k = i
    · subst hk
      by_cases h : j = k
      · subst h
        simp [setEntry, lookupEntry]
      · simp [setEntry, lookupEntry, h, Ne.symm h]
    · by_cases h : j = i
      · subst h
        simp [setEntry, lookupEntry, hk, ih]
      · by_cases hkj : k = j
        · subst hkj
          simp [setEntry, lookupEntry, hk, h]
        · simp [setEntry, lookupEntry, hk, h, hkj, ih]

theorem lookupFact_setFact (σ : RegistryState) (i j : Nat) (f : Fact) :
    lookupFact (applyEffect σ (Effect.setFact i f)) j =
      if j = i then some f else lookupFact σ j := by
  simp [lookupFact, applyEffect, lookupEntry_setEntry]

@[simp]
theorem lookupFact_setCount (σ : RegistryState) (n j : Nat) :
    lookupFact (applyEffect σ (Effect.setCount n)) j = lookupFact σ j := rfl

@[simp]
theorem lookupFact_extendTtlFact (σ : RegistryState) (i j : Nat) :
    lookupFact (applyEffect σ (Effect.extendTtlFact i)) j = lookupFact σ j := rfl

@[simp]
theorem lookupFact_extendTtlInstance (σ : RegistryState) (j : Nat) :
    lookupFact (applyEffect σ Effect.extendTtlInstance) j = lookupFact σ j := rfl

theorem scanAlreadyVoted_iff (l : List Address) (v : Address) :
    scanAlreadyVoted l v = true ↔ v ∈ l := by
  induction l with
  | nil => simp [scanAlreadyVoted]
  | cons a t ih =>
    by_cases h : a = v
    · subst h
      simp [scanAlreadyVoted]
    · have hv : v ≠ a := fun h' => h h'.symm
      simp [scanAlreadyVoted, h, ih, hv]

/-! ## Characterizations of successful calls -/

theorem submit_fact_eq_ok (σ : RegistryState) (c : Address) (t : String)
    (i : Nat) (es : List Effect)
    (h : submit_fact σ c t = (Except.ok i, es)) :
    factCountVal σ + 1 ≤ U32_MAX ∧ i = factCountVal σ + 1 ∧
      es = [Effect.setFact i (freshFact i c t), Effect.setCount i,
        Effect.extendTtlFact i, Effect.extendTtlInstance] := by
  unfold submit_fact at h
  by_cases hle : factCountVal σ + 1 ≤ U32_MAX
  · simp only [hle, if_pos, Prod.mk.injEq, Except.ok.injEq] at h
    obtain ⟨rfl, rfl⟩ := h
    exact ⟨hle, rfl, rfl⟩
  · simp [hle] at h

theorem vote_eq_ok (σ : RegistryState) (v : Address) (i : Nat) (b : Bool)
    (es : List Effect)
    (h : vote σ v i b = (Except.ok (), es)) :
    ∃ f, lookupFact σ i = some f ∧ v ∉ f.voters ∧
      (votedFact f v b).true_votes ≤ U32_MAX ∧
      (votedFact f v b).false_votes ≤ U32_MAX ∧
      es = [Effect.setFact i (votedFact f v b), Effect.extendTtlFact i] := by
  unfold vote at h
  cases hl : lookupFact σ i with
  | none => rw [hl] at h; simp at h
  | some f =>
    rw [hl] at h
    by_cases hs : scanAlreadyVoted f.voters v
    · simp [hs] at h
    · simp only [hs, Bool.false_eq_true, if_neg, not_false_eq_true] at h
      by_cases hb : (votedFact f v b).true_votes ≤ U32_MAX ∧
          (votedFact f v b).false_votes ≤ U32_MAX
      · simp only [hb, if_pos, Prod.mk.injEq, true_and] at h
        refine ⟨f, rfl, ?_, hb.1, hb.2, h.symm⟩
        intro hv
        exact hs ((scanAlreadyVoted_iff f.voters v).mpr hv)
      · simp [hb] at h

/-! ## The reachability invariant -/

/-- The registry invariant: every stored record's key is at most the
counter, its `id` field equals its key, and its vote counters sum to the
length of its voter sequence. -/
def Inv (σ : RegistryState) : Prop :=
  ∀ j f, lookupFact σ j = some f →
    j ≤ factCountVal σ ∧ f.id = j ∧
      f.true_votes + f.false_votes = f.voters.length

theorem inv_initState : Inv initState := by
  intro j f h
  simp [initState, lookupFact, lookupEntry] at h

@[simp]
theorem factCountVal_setFact (σ : RegistryState) (i : Nat) (f : Fact) :
    factCountVal (applyEffect σ (Effect.setFact i f)) = factCountVal σ := rfl

@[simp]
theorem factCountVal_setCount (σ : RegistryState) (n : Nat) :
    factCountVal (applyEffect σ (Effect.setCount n)) = n := rfl

@[simp]
theorem factCountVal_extendTtlFact (σ : RegistryState) (i : Nat) :
    factCountVal (applyEffect σ (Effect.extendTtlFact i)) = factCountVal σ := rfl

@[simp]
theorem factCountVal_extendTtlInstance (σ : RegistryState) :
    factCountVal (applyEffect σ Effect.extendTtlInstance) = factCountVal σ := rfl

theorem inv_submit (σ : RegistryState) (c : Address) (t : String) (i : Nat)
    (es : List Effect) (hinv : Inv σ)
    (h : submit_fact σ c t = (Except.ok i, es)) :
    Inv (applyEffects σ es) := by
  obtain ⟨hle, rfl, rfl⟩ := submit_fact_eq_ok σ c t i es h
  intro j f hf
  simp only [applyEffects_cons, applyEffects_nil, lookupFact_extendTtlFact,
    lookupFact_extendTtlInstance, lookupFact_setCount] at hf
  rw [lookupFact_setFact] at hf
  simp only [applyEffects_cons, applyEffects_nil, factCountVal_extendTtlFact,
    factCountVal_extendTtlInstance, factCountVal_setCount, factCountVal_setFact]
  by_cases hj : j = factCountVal σ + 1
  · rw [if_pos hj] at hf
    obtain rfl := Option.some.inj hf
    subst hj
    exact ⟨le_refl _, rfl, rfl⟩
  · rw [if_neg hj] at hf
    obtain ⟨h1, h2, h3⟩ := hinv j f hf
    exact ⟨Nat.le_succ_of_le h1, h2, h3⟩

theorem inv_vote (σ : RegistryState) (v : Address) (i : Nat) (b : Bool)
    (es : List Effect) (hinv : Inv σ)
    (h : vote σ v i b = (Except.ok (), es)) :
    Inv (applyEffects σ es) := by
  obtain ⟨f, hl, hv, ht, hfv, rfl⟩ := vote_eq_ok σ v i b es h
  obtain ⟨hb, hid, hsum⟩ := hinv i f hl
  intro j g hg
  simp only [applyEffects_cons, applyEffects_nil, lookupFact_extendTtlFact] at hg
  rw [lookupFact_setFact] at hg
  simp only [applyEffects_cons, applyEffects_nil, factCountVal_extendTtlFact,
    factCountVal_setFact]
  by_cases hj : j = i
  · rw [if_pos hj] at hg
    obtain rfl := Option.some.inj hg
    subst hj
    refine ⟨hb, hid, ?_⟩
    cases b <;>
      simp [votedFact, hsum] <;> omega
  · rw [if_neg hj] at hg
    exact hinv j g hg

theorem steps_inv (σ σ' : RegistryState) (h : Steps σ σ') (hinv : Inv σ) :
    Inv σ' := by
  induction h with
  | refl => exact hinv
  | submit σ2 c t i es _ hok ih => exact inv_submit σ2 c t i es ih hok
  | vote σ2 v i b es _ hok ih => exact inv_vote σ2 v i b es ih hok

theorem reachable_inv (σ : RegistryState) (h : Reachable σ) : Inv σ :=
  steps_inv initState σ h inv_initState

theorem steps_trans (σ1 σ2 σ3 : RegistryState) (h12 : Steps σ1 σ2)
    (h23 : Steps σ2 σ3) : Steps σ1 σ3 := by
  induction h23 with
  | refl => exact h12
  | submit σ' c t i es _ hok ih => exact Steps.submit σ1 σ' c t i es ih hok
  | vote σ' v i b es _ hok ih => exact Steps.vote σ1 σ' v i b es ih hok

theorem reachable_steps (σ σ' : RegistryState) (h : Reachable σ)
    (hs : Steps σ σ') : Reachable σ' :=
  steps_trans initState σ σ' h hs

/-- Once an identity appears in a fact's voter sequence, it stays there
under any further successful `submit_fact` and `vote` invocations:
`submit_fact` only writes a fresh key above the counter, and `vote` only
appends to a voter sequence. -/
theorem voted_persists (σ σ' : RegistryState) (h : Steps σ σ')
    (hinv : Inv σ) (i : Nat) (v : Address) (f : Fact)
    (hl : lookupFact σ i = some f) (hv : v ∈ f.voters) :
    ∃ g, lookupFact σ' i = some g ∧ v ∈ g.voters := by
  induction h with
  | refl => exact ⟨f, hl, hv⟩
  | submit σ2 c t n es hs hok ih =>
    obtain ⟨g, hg, hvg⟩ := ih
    have hinv2 : Inv σ2 := steps_inv σ σ2 hs hinv
    have hb : i ≤ factCountVal σ2 := (hinv2 i g hg).1
    obtain ⟨hle, rfl, rfl⟩ := submit_fact_eq_ok σ2 c t n es hok
    refine ⟨g, ?_, hvg⟩
    simp only [applyEffects_cons, applyEffects_nil, lookupFact_extendTtlFact,
      lookupFact_extendTtlInstance, lookupFact_setCount]
    have hne : ¬ i = factCountVal σ2 + 1 := by omega
    rw [lookupFact_setFact, if_neg hne]
    exact hg
  | vote σ2 w n b es hs hok ih =>
    obtain ⟨g, hg, hvg⟩ := ih
    obtain ⟨f2, hl2, hnv, ht, hfv, rfl⟩ := vote_eq_ok σ2 w n b es hok
    by_cases hn : i = n
    · subst hn
      rw [hl2] at hg
      obtain rfl := Option.some.inj hg
      refine ⟨votedFact f2 w b, ?_, ?_⟩
      · simp only [applyEffects_cons, applyEffects_nil, lookupFact_extendTtlFact]
        rw [lookupFact_setFact, if_pos rfl]
      · show v ∈ f2.voters ++ [w]
        exact List.mem_append_left _ hvg
    · refine ⟨g, ?_, hvg⟩
      simp only [applyEffects_cons, applyEffects_nil, lookupFact_extendTtlFact]
      rw [lookupFact_setFact, if_neg hn]
      exact hg

/-! ## Post-state descriptions of the mutating calls -/

theorem submit_fact_of_le (σ : RegistryState) (c : Address) (t : String)
    (h : factCountVal σ + 1 ≤ U32_MAX) :
    submit_fact σ c t = (Except.ok (factCountVal σ + 1),
      [Effect.setFact (factCountVal σ + 1) (freshFact (factCountVal σ + 1) c t),
       Effect.setCount (factCountVal σ + 1),
       Effect.extendTtlFact (factCountVal σ + 1), Effect.extendTtlInstance]) := by
  simp [submit_fact, h]

theorem submit_fact_of_max (σ : RegistryState) (c : Address) (t : String)
    (h : ¬ factCountVal σ + 1 ≤ U32_MAX) :
    submit_fact σ c t = (Except.error Err.Overflow, []) := by
  simp [submit_fact, h]

theorem lookupFact_after_submit (σ : RegistryState) (c : Address) (t : String)
    (i : Nat) (es : List Effect)
    (h : submit_fact σ c t = (Except.ok i, es)) (j : Nat) :
    lookupFact (applyEffects σ es) j =
      if j = i then some (freshFact i c t) else lookupFact σ j := by
  obtain ⟨hle, rfl, rfl⟩ := submit_fact_eq_ok σ c t i es h
  simp only [applyEffects_cons, applyEffects_nil, lookupFact_extendTtlFact,
    lookupFact_extendTtlInstance, lookupFact_setCount]
  rw [lookupFact_setFact]

theorem factCountVal_after_submit (σ : RegistryState) (c : Address) (t : String)
    (i : Nat) (es : List Effect)
    (h : submit_fact σ c t = (Except.ok i, es)) :
    factCountVal (applyEffects σ es) = i := by
  obtain ⟨hle, rfl, rfl⟩ := submit_fact_eq_ok σ c t i es h
  simp only [applyEffects_cons, applyEffects_nil, factCountVal_extendTtlFact,
    factCountVal_extendTtlInstance, factCountVal_setCount]

theorem lookupFact_after_vote (σ : RegistryState) (v : Address) (i : Nat)
    (b : Bool) (es : List Effect) (f : Fact)
    (hl : lookupFact σ i = some f)
    (h : vote σ v i b = (Except.ok (), es)) (j : Nat) :
    lookupFact (applyEffects σ es) j =
      if j = i then some (votedFact f v b) else lookupFact σ j := by
  obtain ⟨f2, hl2, -, -, -, rfl⟩ := vote_eq_ok σ v i b es h
  obtain rfl := Option.some.inj (hl ▸ hl2)
  simp only [applyEffects_cons, applyEffects_nil, lookupFact_extendTtlFact]
  rw [lookupFact_setFact]

theorem factCount_after_vote (σ : RegistryState) (v : Address) (i : Nat)
    (b : Bool) (es : List Effect)
    (h : vote σ v i b = (Except.ok (), es)) :
    (applyEffects σ es).factCount = σ.factCount := by
  obtain ⟨f2, -, -, -, -, rfl⟩ := vote_eq_ok σ v i b es h
  rfl

/-! ## Sequences of submissions -/

/-- Run a sequence of `submit_fact` calls, one per (creator, text) pair,
collecting the ids returned by the successful ones; a panicking call
leaves the state unchanged (the host reverts the invocation). -/
def runSubmits : RegistryState → List (Address × String) → RegistryState × List Nat
  | σ, [] => (σ, [])
  | σ, (c, t) :: rest =>
    match submit_fact σ c t with
    | (Except.ok i, es) =>
      let r := runSubmits (applyEffects σ es) rest
      (r.1, i :: r.2)
    | (Except.error _, _) => runSubmits σ rest

theorem runSubmits_ids (args : List (Address × String)) (σ : RegistryState)
    (h : factCountVal σ ≤ U32_MAX) :
    (runSubmits σ args).2 =
      List.range' (factCountVal σ + 1)
        (min args.length (U32_MAX - factCountVal σ)) := by
  induction args generalizing σ with
  | nil => simp [runSubmits]
  | cons p rest ih =>
    obtain ⟨c, t⟩ := p
    by_cases hlt : factCountVal σ + 1 ≤ U32_MAX
    · have hsub := submit_fact_of_le σ c t hlt
      have hcnt : factCountVal (applyEffects σ
          [Effect.setFact (factCountVal σ + 1) (freshFact (factCountVal σ + 1) c t),
           Effect.setCount (factCountVal σ + 1),
           Effect.extendTtlFact (factCountVal σ + 1), Effect.extendTtlInstance]) =
          factCountVal σ + 1 := by
        simp only [applyEffects_cons, applyEffects_nil, factCountVal_extendTtlFact,
          factCountVal_extendTtlInstance, factCountVal_setCount]
      simp only [runSubmits, hsub]
      rw [ih _ (by rw [hcnt]; exact hlt), hcnt]
      have hmin : min (rest.length + 1) (U32_MAX - factCountVal σ) =
          min rest.length (U32_MAX - (factCountVal σ + 1)) + 1 := by omega
      rw [List.length_cons, hmin, List.range'_succ]
    · have hmax : factCountVal σ = U32_MAX := by omega
      have hsub := submit_fact_of_max σ c t hlt
      simp only [runSubmits, hsub]
      rw [ih σ h, hmax]
      simp

/-! ## The get_all_facts loop -/

theorem foldl_collectFact (σ : RegistryState) (L : List Nat)
    (acc : List Fact × List Effect) :
    (L.foldl (collectFact σ) acc).1 = acc.1 ++ L.filterMap (lookupFact σ) := by
  induction L generalizing acc with
  | nil => simp
  | cons a L ih =>
    simp only [List.foldl_cons, List.filterMap_cons]
    cases hl : lookupFact σ a with
    | none => simp [ih, collectFact, hl]
    | some f => simp [ih, collectFact, hl]

theorem get_all_facts_eq (σ : RegistryState) :
    (get_all_facts σ).1 =
      (List.range' 1 (factCountVal σ)).filterMap (lookupFact σ) := by
  rw [get_all_facts, foldl_collectFact]
  rfl

/-! ## Concrete states used by the witnesses -/

/-- The registry after one submission from the uninitialized state. -/
def stateA : RegistryState :=
  applyEffects initState (submit_fact initState 5 "The Earth is round").2

/-- `stateA` after identity 9 casts a true vote on fact 1. -/
def stateB : RegistryState :=
  applyEffects stateA (vote stateA 9 1 true).2

theorem reachable_stateA : Reachable stateA :=
  Steps.submit initState initState 5 "The Earth is round" 1
    (submit_fact initState 5 "The Earth is round").2 (Steps.refl initState)
    rfl

theorem reachable_stateB : Reachable stateB :=
  Steps.vote initState stateA 9 1 true (vote stateA 9 1 true).2
    reachable_stateA rfl

/-- A registry whose counter is saturated at `u32::MAX`. -/
def maxState : RegistryState := { factCount := some U32_MAX, facts := [] }

/-- A vote by an identity already present in the fact's voter sequence
fails with `AlreadyVoted`, whatever the choice, and performs no write. -/
theorem vote_already (σ : RegistryState) (v : Address) (i : Nat) (b : Bool)
    (f : Fact) (hl : lookupFact σ i = some f) (hv : v ∈ f.voters) :
    vote σ v i b = (Except.error Err.AlreadyVoted, []) := by
  have hs : scanAlreadyVoted f.voters v = true :=
    (scanAlreadyVoted_iff f.voters v).mpr hv
  simp [vote, hl, hs]

/-! ## The claims -/

/-- Claim C1: in every registry state reachable by any sequence of
successful `submit_fact` and `vote` calls, every stored fact record
satisfies `true_votes + false_votes = length voters`; `submit_fact`
establishes it (both counters zero, voters empty) and every successful
`vote` preserves it. -/
theorem c1_tally_matches_voters (σ : RegistryState) (h : Reachable σ)
    (i : Nat) (f : Fact) (hl : lookupFact σ i = some f) :
    f.true_votes + f.false_votes = f.voters.length :=
  (reachable_inv σ h i f hl).2.2

/-- Witness for C1: the invariant evaluated on fact 1 of the concrete
reachable state `stateB`. -/
theorem c1_tally_matches_voters_witness :
    (votedFact (freshFact 1 5 "The Earth is round") 9 true).true_votes +
        (votedFact (freshFact 1 5 "The Earth is round") 9 true).false_votes =
      (votedFact (freshFact 1 5 "The Earth is round") 9 true).voters.length :=
  c1_tally_matches_voters stateB reachable_stateB 1
    (votedFact (freshFact 1 5 "The Earth is round") 9 true) (by decide)

/-- Claim C2: after a successful `vote (v, fact_id, _)`, every later
`vote` with the same `v` and `fact_id` — after any further successful
operations — fails with `AlreadyVoted` regardless of the choice, so at
most one vote per identity and fact can ever succeed; and the duplicate
check is the linear equality scan over the voter sequence. -/
theorem c2_at_most_one_vote :
    (∀ (l : List Address) (v : Address), scanAlreadyVoted l v = true ↔ v ∈ l) ∧
    ∀ σ : RegistryState, Reachable σ →
      ∀ (v : Address) (i : Nat) (b : Bool) (es : List Effect),
        vote σ v i b = (Except.ok (), es) →
        ∀ σ' : RegistryState, Steps (applyEffects σ es) σ' →
          ∀ b' : Bool, vote σ' v i b' = (Except.error Err.AlreadyVoted, []) := by
  refine ⟨scanAlreadyVoted_iff, ?_⟩
  intro σ hreach v i b es hok σ' hsteps b'
  obtain ⟨f, hl, hnv, -, -, rfl⟩ := vote_eq_ok σ v i b es hok
  have hstep : Steps σ (applyEffects σ
      [Effect.setFact i (votedFact f v b), Effect.extendTtlFact i]) :=
    Steps.vote σ σ v i b _ (Steps.refl σ) hok
  have hreach2 := reachable_steps σ _ hreach hstep
  have hinv2 := reachable_inv _ hreach2
  have hlp : lookupFact (applyEffects σ
      [Effect.setFact i (votedFact f v b), Effect.extendTtlFact i]) i =
      some (votedFact f v b) := by
    simp only [applyEffects_cons, applyEffects_nil, lookupFact_extendTtlFact]
    rw [lookupFact_setFact, if_pos rfl]
  have hvp : v ∈ (votedFact f v b).voters :=
    List.mem_append_right _ (List.mem_singleton.mpr rfl)
  obtain ⟨g, hg, hvg⟩ :=
    voted_persists _ σ' hsteps hinv2 i v (votedFact f v b) hlp hvp
  exact vote_already σ' v i b' g hg hvg

/-- Witness for C2: identity 9 voted on fact 1 in `stateA`; its second
vote, with the opposite choice, fails with `AlreadyVoted` in `stateB`. -/
theorem c2_at_most_one_vote_witness :
    vote stateB 9 1 false = (Except.error Err.AlreadyVoted, []) :=
  c2_at_most_one_vote.2 stateA reachable_stateA 9 1 true
    (vote stateA 9 1 true).2 rfl stateB (Steps.refl stateB) false

/-- Claim C3: the ids returned by the successful calls of any sequence of
`submit_fact` calls from the uninitialized registry are exactly
1, 2, 3, … in call order (all calls succeed while the `u32` counter can
still grow), with no gaps and no repeats; the counter defaults to 0 when
absent and each submission stores the returned id as the counter value. -/
theorem c3_ids_sequential :
    (∀ args : List (Address × String),
        (runSubmits initState args).2 =
          List.range' 1 (min args.length U32_MAX)) ∧
    ∀ (σ : RegistryState) (c : Address) (t : String) (i : Nat)
        (es : List Effect),
      submit_fact σ c t = (Except.ok i, es) →
        i = factCountVal σ + 1 ∧ factCountVal (applyEffects σ es) = i := by
  constructor
  · intro args
    rw [runSubmits_ids args initState (Nat.zero_le _)]
    rfl
  · intro σ c t i es h
    exact ⟨(submit_fact_eq_ok σ c t i es h).2.1,
      factCountVal_after_submit σ c t i es h⟩

/-- Witness for C3: the first submission returns id `0 + 1 = 1` and
stores 1 as the counter. -/
theorem c3_ids_sequential_witness :
    1 = factCountVal initState + 1 ∧
      factCountVal (applyEffects initState
        (submit_fact initState 5 "The Earth is round").2) = 1 :=
  c3_ids_sequential.2 initState 5 "The Earth is round" 1
    (submit_fact initState 5 "The Earth is round").2 rfl

/-- Claim C4: after `submit_fact (creator, text)` returns id `n`,
`get_fact n` returns the record with id `n`, the submitted text, the
submitting creator, both counters zero, and an empty voter sequence. -/
theorem c4_get_after_submit (σ : RegistryState) (c : Address) (t : String)
    (n : Nat) (es : List Effect)
    (h : submit_fact σ c t = (Except.ok n, es)) :
    (get_fact (applyEffects σ es) n).1 = Except.ok (freshFact n c t) ∧
      (freshFact n c t).id = n ∧ (freshFact n c t).text = t ∧
      (freshFact n c t).creator = c ∧ (freshFact n c t).true_votes = 0 ∧
      (freshFact n c t).false_votes = 0 ∧ (freshFact n c t).voters = [] := by
  have hl := lookupFact_after_submit σ c t n es h n
  rw [if_pos rfl] at hl
  exact ⟨by simp [get_fact, hl], rfl, rfl, rfl, rfl, rfl, rfl⟩

/-- Witness for C4: reading fact 1 of `stateA` right after submitting it. -/
theorem c4_get_after_submit_witness :
    (get_fact stateA 1).1 = Except.ok (freshFact 1 5 "The Earth is round") ∧
      (freshFact 1 5 "The Earth is round").id = 1 ∧
      (freshFact 1 5 "The Earth is round").text = "The Earth is round" ∧
      (freshFact 1 5 "The Earth is round").creator = 5 ∧
      (freshFact 1 5 "The Earth is round").true_votes = 0 ∧
      (freshFact 1 5 "The Earth is round").false_votes = 0 ∧
      (freshFact 1 5 "The Earth is round").voters = [] :=
  c4_get_after_submit initState 5 "The Earth is round" 1
    (submit_fact initState 5 "The Earth is round").2 rfl

/-- Claim C5: a `vote` call that fails — with `NotFound`, `AlreadyVoted`
or a counter-overflow panic — performs no storage write at all, so the
registry state is completely unchanged (error atomicity). -/
theorem c5_failed_vote_atomic (σ : RegistryState) (v : Address) (i : Nat)
    (b : Bool) (e : Err) (es : List Effect)
    (h : vote σ v i b = (Except.error e, es)) :
    es = [] ∧ applyEffects σ es = σ := by
  unfold vote at h
  cases hl : lookupFact σ i with
  | none =>
    rw [hl] at h
    simp only [Prod.mk.injEq, Except.error.injEq] at h
    obtain ⟨-, rfl⟩ := h
    exact ⟨rfl, rfl⟩
  | some f =>
    rw [hl] at h
    by_cases hs : scanAlreadyVoted f.voters v
    · simp only [hs, if_pos, Prod.mk.injEq, Except.error.injEq] at h
      obtain ⟨-, rfl⟩ := h
      exact ⟨rfl, rfl⟩
    · by_cases hb : (votedFact f v b).true_votes ≤ U32_MAX ∧
          (votedFact f v b).false_votes ≤ U32_MAX
      · simp [hs, hb] at h
      · simp only [hs, Bool.false_eq_true, if_neg, not_false_eq_true, hb,
          if_false, Prod.mk.injEq, Except.error.injEq] at h
        obtain ⟨-, rfl⟩ := h
        exact ⟨rfl, rfl⟩

/-- Witness for C5: the `NotFound` failure on the uninitialized registry
leaves it unchanged. -/
theorem c5_failed_vote_atomic_witness :
    (vote initState 9 1 true).2 = [] ∧
      applyEffects initState (vote initState 9 1 true).2 = initState :=
  c5_failed_vote_atomic initState 9 1 true Err.NotFound
    (vote initState 9 1 true).2 rfl

/-- Claim C6: a successful `vote` on a live fact by a new voter stores
exactly the record that appends the voter at the end of the voter
sequence and increments exactly one counter by one (`true_votes` for a
true choice, `false_votes` otherwise), leaves the record's id, text and
creator unchanged, and touches neither the counter key nor any other
fact record. -/
theorem c6_vote_frame (σ : RegistryState) (v : Address) (i : Nat) (b : Bool)
    (es : List Effect) (f : Fact)
    (hl : lookupFact σ i = some f) (h : vote σ v i b = (Except.ok (), es)) :
    lookupFact (applyEffects σ es) i = some (votedFact f v b) ∧
      (votedFact f v b).voters = f.voters ++ [v] ∧
      (votedFact f v b).true_votes =
        (if b then f.true_votes + 1 else f.true_votes) ∧
      (votedFact f v b).false_votes =
        (if b then f.false_votes else f.false_votes + 1) ∧
      (votedFact f v b).id = f.id ∧ (votedFact f v b).text = f.text ∧
      (votedFact f v b).creator = f.creator ∧
      (∀ j, ¬ j = i → lookupFact (applyEffects σ es) j = lookupFact σ j) ∧
      (applyEffects σ es).factCount = σ.factCount := by
  have hlook := lookupFact_after_vote σ v i b es f hl h
  refine ⟨?_, rfl, rfl, rfl, rfl, rfl, rfl, ?_,
    factCount_after_vote σ v i b es h⟩
  · rw [hlook i, if_pos rfl]
  · intro j hj
    rw [hlook j, if_neg hj]

/-- Witness for C6: the stored record after the vote of `stateB`. -/
theorem c6_vote_frame_witness :
    lookupFact stateB 1 =
      some (votedFact (freshFact 1 5 "The Earth is round") 9 true) :=
  (c6_vote_frame stateA 9 1 true (vote stateA 9 1 true).2
    (freshFact 1 5 "The Earth is round") (by decide) rfl).1

/-- Claim C7: `get_all_facts` returns exactly the live records of the ids
in `[1, count]`, in ascending id order, silently skipping any id in that
range without a record (so the result may be shorter than the counter). -/
theorem c7_get_all_sorted (σ : RegistryState) (h : Reachable σ) :
    (get_all_facts σ).1 =
        (List.range' 1 (factCountVal σ)).filterMap (lookupFact σ) ∧
      List.Pairwise (fun f g => f.id < g.id) (get_all_facts σ).1 := by
  refine ⟨get_all_facts_eq σ, ?_⟩
  rw [get_all_facts_eq σ, List.pairwise_filterMap]
  have hwf : ∀ j f, lookupFact σ j = some f → f.id = j :=
    fun j f hf => (reachable_inv σ h j f hf).2.1
  refine (List.pairwise_lt_range' 1 (factCountVal σ)).imp ?_
  intro a a' hlt f hf g hg
  rw [Option.mem_def] at hf hg
  rw [hwf a f hf, hwf a' g hg]
  exact hlt

/-- Witness for C7: the enumeration of the concrete state `stateB`. -/
theorem c7_get_all_sorted_witness :
    (get_all_facts stateB).1 =
        (List.range' 1 (factCountVal stateB)).filterMap (lookupFact stateB) ∧
      List.Pairwise (fun f g => f.id < g.id) (get_all_facts stateB).1 :=
  c7_get_all_sorted stateB reachable_stateB

/-- Claim C8: `get_fact` and `vote` on an id with no stored record fail
with `NotFound` and write nothing; `get_all_facts` is total and returns
the empty sequence when the fact count is 0. -/
theorem c8_missing_id_errors :
    (∀ (σ : RegistryState) (i : Nat), lookupFact σ i = none →
        get_fact σ i = (Except.error Err.NotFound, []) ∧
        ∀ (v : Address) (b : Bool),
          vote σ v i b = (Except.error Err.NotFound, [])) ∧
    ∀ σ : RegistryState, factCountVal σ = 0 → (get_all_facts σ).1 = [] := by
  constructor
  · intro σ i hl
    exact ⟨by simp [get_fact, hl], fun v b => by simp [vote, hl]⟩
  · intro σ h0
    rw [get_all_facts_eq σ, h0]
    rfl

/-- Witness for C8 on the uninitialized registry. -/
theorem c8_missing_id_errors_witness :
    get_fact initState 1 = (Except.error Err.NotFound, []) ∧
      vote initState 9 1 true = (Except.error Err.NotFound, []) ∧
      (get_all_facts initState).1 = [] :=
  ⟨(c8_missing_id_errors.1 initState 1 rfl).1,
   (c8_missing_id_errors.1 initState 1 rfl).2 9 true,
   c8_missing_id_errors.2 initState rfl⟩

/-- Claim C9: `get_fact_count` returns the stored counter, or 0 if it was
never initialized; it performs no storage write and no TTL refresh, so
the registry state after the call is identical. -/
theorem c9_get_fact_count_pure (σ : RegistryState) :
    get_fact_count σ = (σ.factCount.getD 0, []) ∧
      applyEffects σ (get_fact_count σ).2 = σ :=
  ⟨rfl, rfl⟩

/-- Claim C10: the counter and ids are `u32`; when the stored counter is
`u32::MAX` the addition `fact_count + 1` in `submit_fact` overflows, the
call panics and cannot return any id — in particular no id strictly
larger than the counter — so the 1, 2, 3, … id sequence extends only
while the counter is below `u32::MAX`. -/
theorem c10_counter_saturation (σ : RegistryState) (c : Address) (t : String)
    (h : σ.factCount = some U32_MAX) :
    submit_fact σ c t = (Except.error Err.Overflow, []) ∧
      ∀ (i : Nat) (es : List Effect),
        ¬ submit_fact σ c t = (Except.ok i, es) := by
  have hc : factCountVal σ = U32_MAX := by rw [factCountVal, h]; rfl
  have hmain := submit_fact_of_max σ c t
    (by rw [hc]; exact Nat.not_succ_le_self U32_MAX)
  refine ⟨hmain, ?_⟩
  intro i es hcontra
  rw [hmain] at hcontra
  simp at hcontra

/-- Witness for C10: submitting to a registry saturated at `u32::MAX`. -/
theorem c10_counter_saturation_witness :
    submit_fact maxState 5 "one fact too many" =
      (Except.error Err.Overflow, []) :=
  (c10_counter_saturation maxState 5 "one fact too many" rfl).1

end FactVerification
